import Mathlib

/-!
Verification development for the Edmonds blossom maximum-matching routine
in `src/snippets/blossom_algo.py`.

The Python code is embedded shallowly: each mutable Python list becomes a
`List Int` (or `List Bool`) threaded explicitly through the functions, and
each `while` loop becomes a fuel-indexed recursion.  List indexing follows
Python semantics: a negative index `i` with `-len ≤ i < 0` silently
addresses element `len + i` (so index `-1` reads or writes the LAST
element); indices outside `[-len, len)` would raise in Python and never
occur on the runs considered here, so the embedding returns a default
(for reads) or leaves the list unchanged (for writes) there.
-/

namespace Blossom

/-- Python-style list index resolution: negative indices count from the
end of the list. -/
def pyIdx (len : Nat) (i : Int) : Int :=
  if i < 0 then i + (len : Int) else i

/-- Python-style list read `l[i]`: resolves negative indices from the end;
out-of-range (which raises in Python and is unreachable in the runs we
consider) yields the default `d`. -/
def pyGet {α : Type} (l : List α) (i : Int) (d : α) : α :=
  let j := pyIdx l.length i
  if 0 ≤ j then l.getD j.toNat d else d

/-- Python-style list write `l[i] = x`: resolves negative indices from the
end; out-of-range leaves the list unchanged (unreachable: Python raises). -/
def pySet {α : Type} (l : List α) (i : Int) (x : α) : List α :=
  let j := pyIdx l.length i
  if 0 ≤ j then l.set j.toNat x else l

/-- The mutable state of `max_matching` / `find_path`:
`match_` is the Python list `match` (matched partner or `-1`),
`p` the alternating-tree parent array, `base` the blossom base array,
`used` the visited marks, `blossom` the blossom marker array and
`q` the BFS queue (front = head of the list). -/
structure St where
  match_ : List Int
  p : List Int
  base : List Int
  used : List Bool
  blossom : List Bool
  q : List Int
deriving Repr, DecidableEq

/-- First loop of `lca` (blossom_algo.py lines 23-28): walk `a` rootwards,
marking every base visited in `up`; stops on an unmatched base.  Returns
the final `a` together with the `used_path` marks.  Fuel exhaustion (never
reached in actual runs) returns the current values. -/
def lcaUp (match_ p base : List Int) : Nat → Int → List Bool → Int × List Bool
  | 0, a, up => (a, up)
  | fuel + 1, a, up =>
    let a := pyGet base a (-1)
    let up := pySet up a true
    if pyGet match_ a (-1) = -1 then (a, up)
    else lcaUp match_ p base fuel (pyGet p (pyGet match_ a (-1)) (-1)) up

/-- Second loop of `lca` (blossom_algo.py lines 29-33): walk `b` rootwards
until a base marked by the first loop is found. -/
def lcaDown (match_ p base : List Int) : Nat → Int → List Bool → Int
  | 0, b, _ => b
  | fuel + 1, b, up =>
    let b := pyGet base b (-1)
    if pyGet up b false then b
    else lcaDown match_ p base fuel (pyGet p (pyGet match_ b (-1)) (-1)) up

/-- The function `lca(a, b)` of blossom_algo.py (lines 20-33): least common
ancestor of `a` and `b` in the alternating forest, via a fresh local
`used_path` array of length `n`. -/
def lca (n : Nat) (match_ p base : List Int) (fuel : Nat) (a b : Int) : Int :=
  let r := lcaUp match_ p base fuel a (List.replicate n false)
  lcaDown match_ p base fuel b r.2

/-- The function `mark_path(v, b, x)` of blossom_algo.py (lines 35-41):
mark blossom bases along the path from `v` to base `b`, setting parents.
Returns the updated `p` and `blossom` arrays.  Note the Python body reads
`v = p[x]` after the assignment `p[v] = x`, so the updated `p` is read. -/
def mark_path (match_ base : List Int) : Nat → List Int → List Bool → Int → Int → Int →
    List Int × List Bool
  | 0, p, bl, _, _, _ => (p, bl)
  | fuel + 1, p, bl, v, b, x =>
    if pyGet base v (-1) ≠ b then
      let bl := pySet bl (pyGet base v (-1)) true
      let bl := pySet bl (pyGet base (pyGet match_ v (-1)) (-1)) true
      let p := pySet p v x
      let x2 := pyGet match_ v (-1)
      let v2 := pyGet p x2 (-1)
      mark_path match_ base fuel p bl v2 b x2
    else (p, bl)

/-- The augmentation flip loop of `find_path` (blossom_algo.py lines
79-85): walk back from `curr` through parents, flipping matches.  Note
that when `prev = -1` the Python write `match[prev] = curr` targets
`match[-1]`, i.e. the last entry — `pySet` reproduces this. -/
def augment (p : List Int) : Nat → List Int → Int → List Int
  | 0, m, _ => m
  | fuel + 1, m, curr =>
    if curr = -1 then m
    else
      let prev := pyGet p curr (-1)
      let nxt := if prev ≠ -1 then pyGet m prev (-1) else -1
      let m := pySet m curr prev
      let m := pySet m prev curr
      augment p fuel m nxt

/-- Blossom contraction scan of `find_path` (blossom_algo.py lines 68-73):
for each `i` in `range(n)`, if `blossom[base[i]]` then set
`base[i] = curbase` and enqueue `i` if not yet visited. -/
def contractLoop (curbase : Int) : List Nat → St → St
  | [], s => s
  | i :: rest, s =>
    let s :=
      if pyGet s.blossom (pyGet s.base (i : Int) (-1)) false then
        let s := { s with base := pySet s.base (i : Int) curbase }
        if pyGet s.used (i : Int) false then s
        else { s with used := pySet s.used (i : Int) true, q := s.q ++ [(i : Int)] }
      else s
    contractLoop curbase rest s

/-- Body of the inner `for u in adj[v]` loop of `find_path` (blossom_algo.py
lines 57-89) for a single neighbour `u`.  Returns `(some m, s)` when an
augmenting path was found and the flipped match array is `m` (the Python
code returns `True` at that point), and `(none, s)` to continue. -/
def stepEdge (n : Nat) (root : Int) (fuel : Nat) (v u : Int) (s : St) :
    Option (List Int) × St :=
  if pyGet s.base v (-1) = pyGet s.base u (-1) ∨ pyGet s.match_ v (-1) = u then
    (none, s)
  else if u = root ∨ (pyGet s.match_ u (-1) ≠ -1 ∧
      pyGet s.p (pyGet s.match_ u (-1)) (-1) ≠ -1) then
    let curbase := lca n s.match_ s.p s.base fuel v u
    let bl0 := List.replicate n false
    let r1 := mark_path s.match_ s.base fuel s.p bl0 v curbase u
    let r2 := mark_path s.match_ s.base fuel r1.1 r1.2 u curbase v
    let s := { s with p := r2.1, blossom := r2.2 }
    (none, contractLoop curbase (List.range n) s)
  else if pyGet s.p u (-1) = -1 then
    let p := pySet s.p u v
    if pyGet s.match_ u (-1) = -1 then
      (some (augment p fuel s.match_ u), { s with p := p })
    else
      let w := pyGet s.match_ u (-1)
      (none, { s with p := p, used := pySet s.used w true, q := s.q ++ [w] })
  else (none, s)

/-- The `for u in adj[v]` loop of `find_path`, over the neighbour list of
`v`, with early return on augmentation. -/
def stepNeighbors (n : Nat) (root : Int) (fuel : Nat) (v : Int) :
    List Int → St → Option (List Int) × St
  | [], s => (none, s)
  | u :: rest, s =>
    match stepEdge n root fuel v u s with
    | (some m, s2) => (some m, s2)
    | (none, s2) => stepNeighbors n root fuel v rest s2

/-- The `while q:` BFS loop of `find_path` (blossom_algo.py lines 55-90).
Returns the Python return value together with the final `match` array.
Fuel exhaustion (unreached in actual runs) behaves like an empty queue. -/
def bfs (adj : List (List Int)) (root : Int) (innerFuel : Nat) :
    Nat → St → Bool × List Int
  | 0, s => (false, s.match_)
  | fuel + 1, s =>
    match s.q with
    | [] => (false, s.match_)
    | v :: qrest =>
      let s := { s with q := qrest }
      match stepNeighbors adj.length root innerFuel v (pyGet adj v []) s with
      | (some m, _) => (true, m)
      | (none, s2) => bfs adj root innerFuel fuel s2

/-- Fuel budget used for every loop: generous, since each loop of the
Python code runs at most O(n) (queue, LCA walks, path marking) or O(n)
flip steps per invocation. -/
def fuelFor (n : Nat) : Nat := (n + 2) ^ 3

/-- The function `find_path(root)` of blossom_algo.py (lines 43-90): reset
the per-invocation arrays (`used`, `p`, `base`, `q`), seed the BFS with
`root`, and run the search.  Returns the Python boolean result paired with
the resulting `match` array.  (The `blossom` array persists across calls
in Python but is reset before every read, so starting it all-false is
faithful.) -/
def find_path (adj : List (List Int)) (match_ : List Int) (root : Int) :
    Bool × List Int :=
  let n := adj.length
  let s : St :=
    { match_ := match_
      p := List.replicate n (-1)
      base := (List.range n).map (fun i => (i : Int))
      used := pySet (List.replicate n false) root true
      blossom := List.replicate n false
      q := [root] }
  bfs adj root (fuelFor n) (fuelFor n) s

/-- The driver loop of `max_matching` (blossom_algo.py lines 93-97): for
each vertex in index order, if unmatched, try to augment from it. -/
def mainLoop (adj : List (List Int)) : List Nat → List Int → Nat → List Int × Nat
  | [], match_, res => (match_, res)
  | v :: rest, match_, res =>
    if pyGet match_ (v : Int) (-1) = -1 then
      match find_path adj match_ (v : Int) with
      | (true, m) => mainLoop adj rest m (res + 1)
      | (false, m) => mainLoop adj rest m res
    else mainLoop adj rest match_ res

/-- The function `max_matching(adj)` of blossom_algo.py (lines 4-99):
returns the final `match` array and the number of matched edges. -/
def max_matching (adj : List (List Int)) : List Int × Nat :=
  mainLoop adj (List.range adj.length) (List.replicate adj.length (-1)) 0

/-- The 5-cycle graph built in the demo block of blossom_algo.py (lines
105-110): edges 0-1, 1-2, 2-3, 3-4, 4-0, inserted symmetrically. -/
def cycle5 : List (List Int) := [[1, 4], [0, 2], [1, 3], [2, 4], [3, 0]]

/-- A 4-vertex graph whose only edge is 0-1, given symmetrically. -/
def singleEdge4 : List (List Int) := [[1], [0], [], []]

/-- The blossom contraction scan never touches the `match` array. -/
theorem contractLoop_match (curbase : Int) (l : List Nat) (s : St) :
    (contractLoop curbase l s).match_ = s.match_ := by
  induction l generalizing s with
  | nil => rfl
  | cons i rest ih =>
    simp only [contractLoop]
    split
    · split
      · exact ih _
      · exact ih _
    · exact ih _

/-- Processing one neighbour leaves the `match` array of the carried state
unchanged: the only writes to `match` happen in the returned flipped array
of the augmentation branch. -/
theorem stepEdge_match (n : Nat) (root : Int) (fuel : Nat) (v u : Int) (s : St) :
    ((stepEdge n root fuel v u s).2).match_ = s.match_ := by
  unfold stepEdge
  split
  · rfl
  · split
    · exact contractLoop_match _ _ _
    · split
      · split
        · rfl
        · rfl
      · rfl

/-- The neighbour loop leaves the `match` array of the carried state
unchanged. -/
theorem stepNeighbors_match (n : Nat) (root : Int) (fuel : Nat) (v : Int)
    (l : List Int) (s : St) :
    ((stepNeighbors n root fuel v l s).2).match_ = s.match_ := by
  induction l generalizing s with
  | nil => rfl
  | cons u rest ih =>
    simp only [stepNeighbors]
    have h := stepEdge_match n root fuel v u s
    rcases hse : stepEdge n root fuel v u s with ⟨o, s2⟩
    rw [hse] at h
    cases o with
    | some m => simpa using h
    | none => simpa using (ih s2).trans h

/-- If the BFS loop reports failure, the `match` array it returns is the
one it started from. -/
theorem bfs_false (adj : List (List Int)) (root : Int) (innerFuel : Nat) :
    ∀ (fuel : Nat) (s : St), (bfs adj root innerFuel fuel s).1 = false →
      (bfs adj root innerFuel fuel s).2 = s.match_ := by
  intro fuel
  induction fuel with
  | zero => intro s _; rfl
  | succ fuel ih =>
    intro s hfalse
    simp only [bfs] at hfalse ⊢
    cases hq : s.q with
    | nil => simp
    | cons v qrest =>
      rw [hq] at hfalse
      dsimp only at hfalse ⊢
      have h := stepNeighbors_match adj.length root innerFuel v (pyGet adj v [])
        { s with q := qrest }
      rcases hsn : stepNeighbors adj.length root innerFuel v (pyGet adj v [])
        { s with q := qrest } with ⟨o, s2⟩
      rw [hsn] at hfalse h
      cases o with
      | some m => simp at hfalse
      | none => simpa using (ih s2 (by simpa using hfalse)).trans h

/-- C3: `find_path` is atomic on failure — for every graph, every starting
match array and every root, if the search returns `False` then the match
array is exactly what it was when the search was invoked.  (This holds
even without any well-formedness assumption on the graph or the state.) -/
theorem find_path_atomic (adj : List (List Int)) (match_ : List Int) (root : Int)
    (h : (find_path adj match_ root).1 = false) :
    (find_path adj match_ root).2 = match_ := by
  unfold find_path at h ⊢
  exact bfs_false adj root (fuelFor adj.length) (fuelFor adj.length) _ h

/-- Witness for C3: on the single-edge graph with 0-1 already matched, the
search from the isolated vertex 2 fails and leaves the match array
unchanged. -/
theorem find_path_atomic_witness :
    (find_path singleEdge4 [1, 0, -1, -1] 2).1 = false ∧
    (find_path singleEdge4 [1, 0, -1, -1] 2).2 = [1, 0, -1, -1] :=
  ⟨by decide, find_path_atomic singleEdge4 [1, 0, -1, -1] 2 (by decide)⟩

/-- C7: on the 5-cycle graph of the demo block, `max_matching` returns
size 2, and exactly one entry of the returned match array is the sentinel
`-1` (the full output is `([1, 0, 3, 2, -1], 2)`). -/
theorem max_matching_cycle5 :
    (max_matching cycle5).2 = 2 ∧ ((max_matching cycle5).1.count (-1)) = 1 := by
  decide

/-- C8: on the 4-vertex graph whose only edge is 0-1, `max_matching`
returns match `[1, 0, -1, -1]` and size 1. -/
theorem max_matching_singleEdge4 :
    max_matching singleEdge4 = ([1, 0, -1, -1], 1) := by
  decide

/-- Scenario 3 of the spec: a triangle has maximum matching size 1 with
exactly one unmatched vertex. -/
theorem max_matching_triangle :
    max_matching [[1, 2], [0, 2], [0, 1]] = ([1, 0, -1], 1) := by
  decide

/-- Spec scenario: the empty graph yields an empty match array and size 0. -/
theorem max_matching_empty : max_matching [] = ([], 0) := by
  decide

/-- Spec scenario 4: two triangles 0-1-2 and 3-4-5 joined by the bridge
2-3 admit a perfect matching of size 3. -/
theorem max_matching_twoTriangles :
    (max_matching [[1, 2], [0, 2], [0, 1, 3], [4, 5, 2], [3, 5], [3, 4]]).2 = 3 := by
  decide

end Blossom
